import Mathlib

/-!
Shallow embedding of the go-newsletter scheduled-post publication pipeline:
the post/newsletter/subscriber data model, the post and subscriber
repositories, the post service (create / update / delete / publish and the
subscriber fan-out), and the scheduler sweep, together with theorems about
the spec's testable properties.

Conventions of the embedding:
* UUIDs are modelled as `Nat`, timestamps as `Int`.
* The record store is an explicit `Store` value; SQL statements become pure
  functions from `Store` to `Store` (plus results), with the affected-row
  checks of the source made explicit.
* Fallible external steps (the transition UPDATE's transport, the re-fetch,
  the mail dispatcher) take explicit fault flags; outbound mail-dispatch
  calls are collected in a `List MailCall`.
* The nil-pointer dereference reachable in the repository's create-status
  computation is modelled as an `Option.none` result.
-/

namespace GoNewsletter

/-- Post status enum from `internal/models/enums` (`POSTED` / `SCHEDULED`). -/
inductive PostStatus
  | posted
  | scheduled
deriving DecidableEq, Repr

/-- A row of the `published_posts` table (see the initial schema migration). -/
structure PostRow where
  id : Nat
  newsletterId : Nat
  editorId : Nat
  title : String
  contentHtml : String
  contentText : Option String
  status : PostStatus
  scheduledAt : Option Int
  publishedAt : Option Int
  createdAt : Int
deriving DecidableEq, Repr

/-- A row of the `subscribers` table (id, newsletter, email, confirmation
flag, optional unsubscription timestamp). -/
structure SubscriberRow where
  id : Nat
  newsletterId : Nat
  email : String
  subscribedAt : Int
  isConfirmed : Bool
  unsubscribedAt : Option Int
deriving DecidableEq, Repr

/-- A row of the `newsletters` table (the fields the core reads). -/
structure NewsletterRow where
  id : Nat
  editorId : Nat
  name : String
deriving DecidableEq, Repr

/-- The record store: the three tables the publication pipeline touches. -/
structure Store where
  posts : List PostRow
  newsletters : List NewsletterRow
  subscribers : List SubscriberRow
deriving DecidableEq, Repr

/-- Error taxonomy of `internal/models/errors.go` plus generic store /
dispatch failures (`badRequest` = validation, `internal` = 500-class). -/
inductive SvcError
  | notFound
  | forbidden
  | badRequest
  | internal
deriving DecidableEq, Repr

/-- One outbound call handed to `MailingService.SendMail`. -/
structure MailCall where
  recipients : List String
  subject : String
  htmlBody : String
deriving DecidableEq, Repr

/-- Fault flags for the externally fallible steps of `PostService.PublishPost`:
the transition UPDATE's transport failing, the re-fetch failing, and the mail
dispatcher returning an error. -/
structure Faults where
  publishExecFails : Bool
  getPostFails : Bool
  sendMailFails : Bool
deriving DecidableEq, Repr

/-- The all-succeed fault assignment. -/
def noFaults : Faults := ⟨false, false, false⟩

/-! ## Post repository (`internal/repository`, post repository file) -/

/-- `SELECT ... FROM published_posts WHERE id = $1` (`PostRepository.GetPostById`);
no row is pgx's no-rows error, surfaced as not-found. -/
def PostRepository.GetPostById (st : Store) (postId : Nat) : Except SvcError PostRow :=
  match st.posts.find? (fun p => p.id == postId) with
  | some p => .ok p
  | none => .error .notFound

/-- The WHERE clause of `PostRepository.GetPostsDueForPublication`:
`status = 'SCHEDULED' AND scheduled_at <= $2 AND published_at IS NULL`
(SQL comparison against a NULL `scheduled_at` selects nothing). -/
def dueForPublication (now : Int) (p : PostRow) : Bool :=
  decide (p.status = PostStatus.scheduled) &&
    (match p.scheduledAt with
     | some t => decide (t ≤ now)
     | none => false) &&
    p.publishedAt.isNone

/-- `PostRepository.GetPostsDueForPublication`: all scheduled posts due at
`now`. -/
def PostRepository.GetPostsDueForPublication (st : Store) (now : Int) : List PostRow :=
  st.posts.filter (dueForPublication now)

/-- The row-level effect of the transition UPDATE in
`PostRepository.PublishPost`: `SET status = 'POSTED', published_at = now`.
Unconditional on the prior status. -/
def markPublished (now : Int) (p : PostRow) : PostRow :=
  { p with status := .posted, publishedAt := some now }

/-- `PostRepository.PublishPost`: `UPDATE published_posts SET status, published_at
WHERE id = $1`; zero affected rows yields the not-found error. -/
def PostRepository.PublishPost (st : Store) (postId : Nat) (now : Int) :
    Except SvcError Store :=
  if st.posts.any (fun p => p.id == postId) then
    .ok { st with
      posts := st.posts.map (fun p => if p.id == postId then markPublished now p else p) }
  else
    .error .notFound

/-- `PostRepository.DeletePostById`: `DELETE FROM published_posts WHERE id = $1`;
zero affected rows yields the not-found error. -/
def PostRepository.DeletePostById (st : Store) (postId : Nat) :
    Except SvcError Store :=
  if st.posts.any (fun p => p.id == postId) then
    .ok { st with posts := st.posts.filter (fun p => p.id != postId) }
  else
    .error .notFound

/-- The request body (`generated.PublishPostRequest`): title, HTML content,
optional plain text, optional scheduled-at. -/
structure PublishPostRequest where
  title : String
  contentHtml : String
  contentText : Option String
  scheduledAt : Option Int
deriving DecidableEq, Repr

/-- Outcome of the Go condition
`createPost.ScheduledAt != nil && createPost.ScheduledAt.Before(now) ||
createPost.ScheduledAt.Equal(now)` in `PostRepository.CreatePost`.
Since Go's conjunction binds tighter than its disjunction, a nil
`ScheduledAt` short-circuits the left conjunct but still evaluates
`ScheduledAt.Equal(now)` on the nil pointer: that runtime fault is modelled
as `none`. -/
def createDueCheck (scheduledAt : Option Int) (now : Int) : Option Bool :=
  match scheduledAt with
  | some t => some (decide (t < now) || decide (t = now))
  | none => none

/-- `PostRepository.CreatePost`: computes the initial status from the
requested send time (see `createDueCheck`; `none` = nil dereference),
then inserts the row (`id` is the generated UUID, passed explicitly;
a duplicate primary key makes the INSERT fail). -/
def PostRepository.CreatePost (st : Store) (userId : Nat)
    (createPost : PublishPostRequest) (newsletterId : Nat) (newId : Nat) (now : Int) :
    Option (Except SvcError (PostRow × Store)) :=
  match createDueCheck createPost.scheduledAt now with
  | none => none
  | some due =>
    let status : PostStatus := if due then .posted else .scheduled
    let publishedAt : Option Int := if due then some now else none
    let row : PostRow :=
      { id := newId
        newsletterId := newsletterId
        editorId := userId
        title := createPost.title
        contentHtml := createPost.contentHtml
        contentText := createPost.contentText
        status := status
        scheduledAt := createPost.scheduledAt
        publishedAt := publishedAt
        createdAt := now }
    if st.posts.any (fun p => p.id == newId) then
      some (.error .internal)
    else
      some (.ok (row, { st with posts := st.posts ++ [row] }))

/-- The per-row effect of the UPDATE in `PostRepository.UpdatePost`:
`SET title, content_html, content_text, status, scheduled_at, published_at`. -/
def applyPostUpdate (updatePost : PublishPostRequest) (status : PostStatus)
    (publishedAt : Option Int) (p : PostRow) : PostRow :=
  { p with
    title := updatePost.title
    contentHtml := updatePost.contentHtml
    contentText := updatePost.contentText
    status := status
    scheduledAt := updatePost.scheduledAt
    publishedAt := publishedAt }

/-- `PostRepository.UpdatePost`: re-reads the original row, preserves
status/published-at when the post was already published, otherwise applies
the now-or-past rule to the new requested time (here the nil check guards
the whole disjunction), then issues the UPDATE and returns the updated row. -/
def PostRepository.UpdatePost (st : Store) (postId : Nat)
    (updatePost : PublishPostRequest) (now : Int) :
    Except SvcError (PostRow × Store) :=
  match st.posts.find? (fun p => p.id == postId) with
  | none => .error .notFound
  | some originalPost =>
    let sp : PostStatus × Option Int :=
      if originalPost.publishedAt.isSome then
        (.posted, originalPost.publishedAt)
      else if (match updatePost.scheduledAt with
               | some t => decide (t < now) || decide (t = now)
               | none => false) then
        (.posted, some now)
      else
        (.scheduled, none)
    .ok (applyPostUpdate updatePost sp.1 sp.2 originalPost,
      { st with
        posts := st.posts.map (fun p =>
          if p.id == postId then applyPostUpdate updatePost sp.1 sp.2 p else p) })

/-! ## Subscriber and newsletter access -/

/-- `SubscriberRepository.ListByNewsletterID`:
`SELECT ... FROM subscribers WHERE newsletter_id = $1` — no condition on
`is_confirmed` or `unsubscribed_at`. -/
def SubscriberRepository.ListByNewsletterID (st : Store) (newsletterId : Nat) :
    List SubscriberRow :=
  st.subscribers.filter (fun s => s.newsletterId == newsletterId)

/-- `NewsletterRepository.GetByID`: resolve a newsletter row by id,
not-found when absent. -/
def NewsletterRepository.GetByID (st : Store) (newsletterId : Nat) :
    Except SvcError NewsletterRow :=
  match st.newsletters.find? (fun n => n.id == newsletterId) with
  | some n => .ok n
  | none => .error .notFound

/-- Modelled from the spec: `NewsletterService.GetNewsletterByIDCheckOwnership`
is not among the provided sources; per §4.1 ("caller must own the newsletter
(else forbidden); nonexistent newsletter yields not-found") and the in-source
`GetNewsletterByID` / `checkNewsletterOwnership` pair of the newsletter
service, it resolves the newsletter and verifies the caller is its editor. -/
def NewsletterService.GetNewsletterByIDCheckOwnership (st : Store)
    (newsletterId : Nat) (editorId : Nat) : Except SvcError NewsletterRow :=
  match NewsletterRepository.GetByID st newsletterId with
  | .error e => .error e
  | .ok n => if n.editorId == editorId then .ok n else .error .forbidden

/-- Modelled from the spec: the one-argument `NewsletterService.GetNewsletterByID`
used by the fan-out (§4.1 step (3), "resolve its owning newsletter") is not
among the provided sources; it resolves the newsletter by id with no
ownership check. -/
def NewsletterService.GetNewsletterByID (st : Store) (newsletterId : Nat) :
    Except SvcError NewsletterRow :=
  NewsletterRepository.GetByID st newsletterId

/-- Modelled from the spec: `SubscriberService.ListSubscribersWithouCheck` is
not among the provided sources; per its name and the cited backing query
`SubscriberRepository.ListByNewsletterID`, it returns the repository listing
for the newsletter without the editor-ownership check. -/
def SubscriberService.ListSubscribersWithouCheck (st : Store) (newsletterId : Nat) :
    List SubscriberRow :=
  SubscriberRepository.ListByNewsletterID st newsletterId

/-! ## Post service (`internal/services`, post service file) -/

/-- `PostService.sendMailToSubscribers`: skip unless the post is posted with
published-at set; resolve the newsletter; list the newsletter's subscribers;
keep the confirmed ones' emails; if any remain, issue one `SendMail` call with
subject `"name: title"` (bare title when the newsletter name is empty) and the
post's HTML body.  Returns the (logged-by-callers) result and the dispatch
calls made; a failing dispatch is still a call made. -/
def PostService.sendMailToSubscribers (st : Store) (post : PostRow)
    (sendMailFails : Bool) : Except SvcError Unit × List MailCall :=
  if post.status ≠ PostStatus.posted ∨ post.publishedAt = none then
    (.ok (), [])
  else
    match NewsletterService.GetNewsletterByID st post.newsletterId with
    | .error e => (.error e, [])
    | .ok newsletter =>
      let subscribers := SubscriberService.ListSubscribersWithouCheck st post.newsletterId
      if subscribers.isEmpty then
        (.ok (), [])
      else
        let emailList := (subscribers.filter (fun s => s.isConfirmed)).map
          (fun s => s.email)
        if emailList.isEmpty then
          (.ok (), [])
        else
          let subject :=
            if newsletter.name ≠ "" then newsletter.name ++ ": " ++ post.title
            else post.title
          let call : MailCall :=
            { recipients := emailList, subject := subject, htmlBody := post.contentHtml }
          if sendMailFails then (.error .internal, [call]) else (.ok (), [call])

/-- `PostService.validatePublishPostRequest`: title must be non-blank and a
scheduled-at must be present, else a bad-request (validation) error. -/
def PostService.validatePublishPostRequest (post : PublishPostRequest) :
    Except SvcError Unit :=
  if post.title.trim = "" then .error .badRequest
  else if post.scheduledAt = none then .error .badRequest
  else .ok ()

/-- `PostService.PublishPost`: repository transition UPDATE first (transport
failure or zero affected rows abort with the error and no mail), then the
re-fetch, then the fan-out whose error is logged and not propagated. -/
def PostService.PublishPost (st : Store) (postId : Nat) (now : Int) (f : Faults) :
    Except SvcError Unit × Store × List MailCall :=
  if f.publishExecFails then
    (.error .internal, st, [])
  else
    match PostRepository.PublishPost st postId now with
    | .error e => (.error e, st, [])
    | .ok st1 =>
      if f.getPostFails then
        (.error .internal, st1, [])
      else
        match PostRepository.GetPostById st1 postId with
        | .error e => (.error e, st1, [])
        | .ok post =>
          let r := PostService.sendMailToSubscribers st1 post f.sendMailFails
          (.ok (), st1, r.2)

/-- `PostService.CreatePost`: newsletter-ownership check, then request
validation, then the repository insert (whose nil dereference propagates as
`none`), then — when the created row is posted with published-at set — the
fan-out, whose error is logged and not propagated. -/
def PostService.CreatePost (st : Store) (editorId : Nat)
    (createPost : PublishPostRequest) (newsletterId : Nat) (newId : Nat)
    (now : Int) (sendMailFails : Bool) :
    Option (Except SvcError PostRow × Store × List MailCall) :=
  match NewsletterService.GetNewsletterByIDCheckOwnership st newsletterId editorId with
  | .error e => some (.error e, st, [])
  | .ok _ =>
    match PostService.validatePublishPostRequest createPost with
    | .error e => some (.error e, st, [])
    | .ok _ =>
      match PostRepository.CreatePost st editorId createPost newsletterId newId now with
      | none => none
      | some (.error e) => some (.error e, st, [])
      | some (.ok (post, st1)) =>
        if post.status = PostStatus.posted ∧ post.publishedAt ≠ none then
          some (.ok post, st1, (PostService.sendMailToSubscribers st1 post sendMailFails).2)
        else
          some (.ok post, st1, [])

/-- `PostService.UpdatePost`: ownership check, fetch of the existing post,
the post-belongs-to-newsletter check (forbidden on mismatch), the repository
update, then — when the updated row is posted with published-at set — the
fan-out, whose error is logged and not propagated. -/
def PostService.UpdatePost (st : Store) (editorId : Nat) (postId : Nat)
    (updatePost : PublishPostRequest) (newsletterId : Nat) (now : Int)
    (sendMailFails : Bool) : Except SvcError PostRow × Store × List MailCall :=
  match NewsletterService.GetNewsletterByIDCheckOwnership st newsletterId editorId with
  | .error e => (.error e, st, [])
  | .ok _ =>
    match PostRepository.GetPostById st postId with
    | .error e => (.error e, st, [])
    | .ok existingPost =>
      if existingPost.newsletterId ≠ newsletterId then
        (.error .forbidden, st, [])
      else
        match PostRepository.UpdatePost st postId updatePost now with
        | .error e => (.error e, st, [])
        | .ok (post, st1) =>
          if post.status = PostStatus.posted ∧ post.publishedAt ≠ none then
            (.ok post, st1, (PostService.sendMailToSubscribers st1 post sendMailFails).2)
          else
            (.ok post, st1, [])

/-- `PostService.GetPostById`: ownership check on the supplied newsletter id,
then the post fetch — with no check that the post belongs to that newsletter. -/
def PostService.GetPostById (st : Store) (newsletterId : Nat) (postId : Nat)
    (editorId : Nat) : Except SvcError PostRow :=
  match NewsletterService.GetNewsletterByIDCheckOwnership st newsletterId editorId with
  | .error e => .error e
  | .ok _ => PostRepository.GetPostById st postId

/-- `PostService.DeletePostById`: ownership check on the supplied newsletter
id, then the delete — with no check that the post belongs to that newsletter. -/
def PostService.DeletePostById (st : Store) (newsletterId : Nat) (postId : Nat)
    (editorId : Nat) : Except SvcError Unit × Store :=
  match NewsletterService.GetNewsletterByIDCheckOwnership st newsletterId editorId with
  | .error e => (.error e, st)
  | .ok _ =>
    match PostRepository.DeletePostById st postId with
    | .error e => (.error e, st)
    | .ok st1 => (.ok (), st1)

/-! ## Scheduler sweep (`internal/scheduler`) -/

/-- `PostPublisher.publishScheduledPosts`: one sweep at `now`.  When the
due-posts query fails, return with no publish invocations; otherwise invoke
`PostService.PublishPost` for every due post in order, continuing past
per-post failures.  Returns the resulting store and the ids the sweep invoked
`PublishPost` on. -/
def PostPublisher.publishScheduledPosts (st : Store) (now : Int)
    (queryFails : Bool) (f : Nat → Faults) : Store × List Nat :=
  if queryFails then
    (st, [])
  else
    (PostRepository.GetPostsDueForPublication st now).foldl
      (fun acc post =>
        ((PostService.PublishPost acc.1 post.id now (f post.id)).2.1,
          acc.2 ++ [post.id]))
      (st, [])

/-! ## Operation alphabet for the lifecycle claims -/

/-- One store-mutating operation of the publication pipeline, applied at an
explicit current time (the service-level ownership gates do not change the
store and are omitted from the lifecycle alphabet; failing operations leave
the store unchanged). -/
inductive Op
  | create (editorId : Nat) (req : PublishPostRequest) (newsletterId : Nat) (newId : Nat)
  | update (postId : Nat) (req : PublishPostRequest)
  | publish (postId : Nat)
  | sweep
deriving DecidableEq, Repr

/-- The store transition of one operation at time `now`. -/
def Op.apply (op : Op) (now : Int) (st : Store) : Store :=
  match op with
  | .create editorId req newsletterId newId =>
    match PostRepository.CreatePost st editorId req newsletterId newId now with
    | some (.ok (_, st1)) => st1
    | _ => st
  | .update postId req =>
    match PostRepository.UpdatePost st postId req now with
    | .ok (_, st1) => st1
    | .error _ => st
  | .publish postId =>
    match PostRepository.PublishPost st postId now with
    | .ok st1 => st1
    | .error _ => st
  | .sweep =>
    (PostPublisher.publishScheduledPosts st now false (fun _ => noFaults)).1

/-- Fold a timed operation sequence over the store. -/
def Op.applyAll (ops : List (Op × Int)) (st : Store) : Store :=
  ops.foldl (fun s oi => oi.1.apply oi.2 s) st

/-- Primary-key wellformedness: post ids are pairwise distinct. -/
abbrev idsNodup (st : Store) : Prop :=
  (st.posts.map PostRow.id).Nodup

/-- One direction of the §3 data-model invariant: a posted post has a non-null
`published_at`. -/
abbrev postedHasPublishedAt (st : Store) : Prop :=
  ∀ p ∈ st.posts, p.status = PostStatus.posted → p.publishedAt ≠ none


/-! ## Concrete fixtures used by witnesses and counterexamples -/

/-- Empty store. -/
def emptyStore : Store := { posts := [], newsletters := [], subscribers := [] }

/-- A scheduled post of newsletter 1 by editor 10, due at time 3. -/
def post1 : PostRow := { id := 1, newsletterId := 1, editorId := 10, title := "T", contentHtml := "H", contentText := none, status := .scheduled, scheduledAt := some 3, publishedAt := none, createdAt := 0 }

/-- Newsletter 1, owned by editor 10, named "N". -/
def newsletter1 : NewsletterRow := { id := 1, editorId := 10, name := "N" }

/-- A confirmed subscriber of newsletter 1 who unsubscribed at time 5. -/
def unsubbedConfirmed : SubscriberRow := { id := 1, newsletterId := 1, email := "a@x", subscribedAt := 0, isConfirmed := true, unsubscribedAt := some 5 }

/-- A confirmed, never-unsubscribed subscriber of newsletter 1. -/
def confirmedSub : SubscriberRow := { id := 2, newsletterId := 1, email := "b@x", subscribedAt := 0, isConfirmed := true, unsubscribedAt := none }

/-- Store: newsletter 1 with one scheduled post and one confirmed-but-unsubscribed subscriber. -/
def fanoutBugStore : Store := { posts := [post1], newsletters := [newsletter1], subscribers := [unsubbedConfirmed] }

/-- Store: newsletter 1 with one scheduled post and one confirmed subscriber. -/
def oneSubStore : Store := { posts := [post1], newsletters := [newsletter1], subscribers := [confirmedSub] }

/-- A post of newsletter 1 already posted at time 5. -/
def postedPost : PostRow := { id := 2, newsletterId := 1, editorId := 10, title := "T", contentHtml := "H", contentText := none, status := .posted, scheduledAt := some 1, publishedAt := some 5, createdAt := 0 }

/-- Store: newsletter 1 with an already-posted post and one confirmed subscriber. -/
def postedStore : Store := { posts := [postedPost], newsletters := [newsletter1], subscribers := [confirmedSub] }

/-- An update request with a future requested send time (100). -/
def futureReq : PublishPostRequest := { title := "T2", contentHtml := "H2", contentText := none, scheduledAt := some 100 }

/-- A create request with no requested send time. -/
def nilTimeReq : PublishPostRequest := { title := "T", contentHtml := "H", contentText := none, scheduledAt := none }

/-- A post that belongs to newsletter 2 (owned by editor 20). -/
def otherPost : PostRow := { id := 5, newsletterId := 2, editorId := 20, title := "T", contentHtml := "H", contentText := none, status := .scheduled, scheduledAt := some 99, publishedAt := none, createdAt := 0 }

/-- Store with two newsletters owned by different editors; the only post belongs to newsletter 2. -/
def twoNewsletterStore : Store := { posts := [otherPost], newsletters := [newsletter1, { id := 2, editorId := 20, name := "B" }], subscribers := [] }

/-- Sweep fixture: one due scheduled post (id 1), one future scheduled post (id 2), one posted post (id 3), checked at time 10. -/
def sweepStore : Store := { posts := [post1, { id := 2, newsletterId := 1, editorId := 10, title := "B", contentHtml := "HB", contentText := none, status := .scheduled, scheduledAt := some 50, publishedAt := none, createdAt := 0 }, { id := 3, newsletterId := 1, editorId := 10, title := "C", contentHtml := "HC", contentText := none, status := .posted, scheduledAt := some 1, publishedAt := some 2, createdAt := 0 }], newsletters := [newsletter1], subscribers := [] }

/-- Whether an operation is a direct publish targeting the given post id. -/
def Op.isPublishOf : Op → Nat → Bool
  | .publish pid, i => pid == i
  | _, _ => false

/-- A create request with an already-due send time (3). -/
def dueReq : PublishPostRequest := { title := "T", contentHtml := "H", contentText := none, scheduledAt := some 3 }

/-- Decidable equality for `Except` results, used to evaluate the embedding
on concrete inputs. -/
instance {e a : Type} [DecidableEq e] [DecidableEq a] : DecidableEq (Except e a) := fun x y =>
  match x, y with
  | .ok u, .ok v =>
    if h : u = v then .isTrue (by rw [h]) else .isFalse (fun hc => h (Except.ok.inj hc))
  | .error u, .error v =>
    if h : u = v then .isTrue (by rw [h]) else .isFalse (fun hc => h (Except.error.inj hc))
  | .ok _, .error _ => .isFalse (fun hc => Except.noConfusion hc)
  | .error _, .ok _ => .isFalse (fun hc => Except.noConfusion hc)

/-- Operation sequence fixture: an update at time 10, then a sweep at time 20. -/
def c2ops : List (Op × Int) := [(Op.update 2 futureReq, 10), (Op.sweep, 20)]

/-! ## Basic inversion and helper lemmas -/

theorem mem_id_eq_of_nodup {st : Store} (hnd : idsNodup st) {p q : PostRow}
    (hp : p ∈ st.posts) (hq : q ∈ st.posts) (h : p.id = q.id) : p = q :=
  List.inj_on_of_nodup_map hnd hp hq h

theorem getPostById_ok {st : Store} {pid : Nat} {p : PostRow} :
    PostRepository.GetPostById st pid = .ok p ↔
      st.posts.find? (fun q => q.id == pid) = some p := by
  unfold PostRepository.GetPostById
  cases h : st.posts.find? (fun q => q.id == pid) <;> simp

theorem ownership_ok {st : Store} {nlid eid : Nat} {n : NewsletterRow}
    (h : NewsletterService.GetNewsletterByIDCheckOwnership st nlid eid = .ok n) :
    NewsletterRepository.GetByID st nlid = .ok n := by
  unfold NewsletterService.GetNewsletterByIDCheckOwnership at h
  cases hg : NewsletterRepository.GetByID st nlid with
  | error e => rw [hg] at h; exact absurd h (by simp)
  | ok m =>
    rw [hg] at h
    by_cases hm : (m.editorId == eid) = true
    · simp only [hm, if_true] at h
      exact h
    · simp only [hm, Bool.false_eq_true, if_false] at h
      exact absurd h (by simp)

theorem sendMail_not_posted {st : Store} {post : PostRow} {sf : Bool}
    (h : post.status ≠ PostStatus.posted ∨ post.publishedAt = none) :
    PostService.sendMailToSubscribers st post sf = (.ok (), []) := by
  unfold PostService.sendMailToSubscribers
  rw [if_pos h]

theorem sendMail_posted_calls {st : Store} {post : PostRow} {sf : Bool}
    (h1 : post.status = PostStatus.posted) (h2 : post.publishedAt ≠ none)
    {nl : NewsletterRow}
    (hnl : NewsletterRepository.GetByID st post.newsletterId = .ok nl)
    (hsub : (SubscriberRepository.ListByNewsletterID st post.newsletterId).filter
      (fun s => s.isConfirmed) ≠ []) :
    (PostService.sendMailToSubscribers st post sf).2 =
      [{ recipients := ((SubscriberRepository.ListByNewsletterID st post.newsletterId).filter
            (fun s => s.isConfirmed)).map (fun s => s.email),
         subject := if nl.name ≠ "" then nl.name ++ ": " ++ post.title else post.title,
         htmlBody := post.contentHtml }] := by
  unfold PostService.sendMailToSubscribers
  rw [if_neg (by push_neg; exact ⟨h1, h2⟩)]
  unfold NewsletterService.GetNewsletterByID
  rw [hnl]
  dsimp only
  have hsubs : (SubscriberService.ListSubscribersWithouCheck st post.newsletterId).isEmpty = false := by
    unfold SubscriberService.ListSubscribersWithouCheck
    rcases hc : SubscriberRepository.ListByNewsletterID st post.newsletterId with _ | ⟨a, l⟩
    · exact absurd (by rw [hc] at hsub ⊢; simp at hsub ⊢) hsub
    · rfl
  rw [hsubs]
  simp only [Bool.false_eq_true, if_false]
  have hml : ((SubscriberService.ListSubscribersWithouCheck st post.newsletterId).filter
      (fun s => s.isConfirmed)).map (fun s => s.email) ≠ [] := by
    unfold SubscriberService.ListSubscribersWithouCheck
    simpa using hsub
  rcases he : ((SubscriberService.ListSubscribersWithouCheck st post.newsletterId).filter
      (fun s => s.isConfirmed)).map (fun s => s.email) with _ | ⟨a, l⟩
  · exact absurd he hml
  · rw [he]
    simp only [List.isEmpty_cons, Bool.false_eq_true, if_false]
    have hre : (SubscriberService.ListSubscribersWithouCheck st post.newsletterId) =
        SubscriberRepository.ListByNewsletterID st post.newsletterId := rfl
    rw [hre] at he
    cases sf <;> simp only [eq_self_iff_true, if_true, Bool.false_eq_true, if_false] <;>
      rw [← he]

/-! ## Store effect of the service-level publish -/

theorem svcPublishPost_store (st : Store) (pid : Nat) (now : Int) (f : Faults)
    (h : f.publishExecFails = false) :
    (PostService.PublishPost st pid now f).2.1 =
      if st.posts.any (fun p => p.id == pid) then
        { st with posts := st.posts.map (fun p => if p.id == pid then markPublished now p else p) }
      else st := by
  unfold PostService.PublishPost PostRepository.PublishPost
  rw [h]
  simp only [Bool.false_eq_true, if_false]
  by_cases hany : (st.posts.any (fun p => p.id == pid)) = true
  · rw [if_pos hany, if_pos hany]
    cases f.getPostFails
    · simp only [Bool.false_eq_true, if_false]
      cases hg : PostRepository.GetPostById
          { st with posts := st.posts.map (fun p => if p.id == pid then markPublished now p else p) } pid <;>
        rfl
    · rfl
  · rw [if_neg hany, if_neg hany]

theorem markPublished_id (now : Int) (p : PostRow) : (markPublished now p).id = p.id := rfl

theorem publishPostRepo_ok {st : Store} {postId : Nat} {now : Int}
    (h : st.posts.any (fun p => p.id == postId) = true) :
    PostRepository.PublishPost st postId now =
      .ok { st with posts := st.posts.map (fun p => if p.id == postId then markPublished now p else p) } := by
  unfold PostRepository.PublishPost
  rw [if_pos h]

/-- C4: `PublishPost(postId)` issues the status-transition update first and
returns not-found when it affects zero rows; whenever the transition step
fails (transport failure) or affects zero rows, the error is returned, the
store is unchanged, and no mail-dispatch call is made. -/
theorem PostService.publishPost_transition_error_no_mail
    (st : Store) (postId : Nat) (now : Int) (f : Faults)
    (h : f.publishExecFails = true ∨ st.posts.any (fun p => p.id == postId) = false) :
    (∃ e, PostService.PublishPost st postId now f = (.error e, st, [])) ∧
    (f.publishExecFails = false →
      PostService.PublishPost st postId now f = (.error .notFound, st, [])) := by
  constructor
  · cases hf : f.publishExecFails
    · rcases h with h | h
      · rw [hf] at h; exact absurd h (by simp)
      · refine ⟨.notFound, ?_⟩
        unfold PostService.PublishPost PostRepository.PublishPost
        simp [hf, h]
    · exact ⟨.internal, by unfold PostService.PublishPost; simp [hf]⟩
  · intro hf
    rcases h with h | h
    · rw [hf] at h; exact absurd h (by simp)
    · unfold PostService.PublishPost PostRepository.PublishPost
      simp [hf, h]

/-- C4 witness: on a store with no posts, the transition affects zero rows,
so `PublishPost` returns not-found with no mail dispatched. -/
theorem PostService.publishPost_transition_error_no_mail_witness :
    (noFaults.publishExecFails = true ∨ emptyStore.posts.any (fun p => p.id == 1) = false) ∧
    ((∃ e, PostService.PublishPost emptyStore 1 7 noFaults = (.error e, emptyStore, [])) ∧
      (noFaults.publishExecFails = false →
        PostService.PublishPost emptyStore 1 7 noFaults = (.error .notFound, emptyStore, []))) :=
  ⟨by decide, PostService.publishPost_transition_error_no_mail emptyStore 1 7 noFaults (by decide)⟩

/-- C5: when the transition and re-fetch succeed but the mail dispatcher
fails, `PublishPost` still returns success, and the post stays posted with
`published_at` set — the dispatch failure is not propagated and the status is
not rolled back. -/
theorem PostService.publishPost_dispatch_failure_still_ok
    (st : Store) (postId : Nat) (now : Int)
    (h : st.posts.any (fun p => p.id == postId) = true) :
    (PostService.PublishPost st postId now ⟨false, false, true⟩).1 = .ok () ∧
    ∀ q ∈ (PostService.PublishPost st postId now ⟨false, false, true⟩).2.1.posts,
      q.id = postId → q.status = .posted ∧ q.publishedAt = some now := by
  have hrepo := @publishPostRepo_ok st postId now h
  have hmem : ∀ q ∈ (st.posts.map (fun p => if p.id == postId then markPublished now p else p)),
      q.id = postId → q.status = .posted ∧ q.publishedAt = some now := by
    intro q hq hid
    rcases List.mem_map.1 hq with ⟨r, hr, hrq⟩
    by_cases hri : (r.id == postId) = true
    · rw [if_pos hri] at hrq
      rw [← hrq]
      exact ⟨rfl, rfl⟩
    · rw [if_neg hri] at hrq
      rw [← hrq] at hid
      exact absurd (by simp [hid]) hri
  have hfind : (st.posts.map (fun p => if p.id == postId then markPublished now p else p)).find?
      (fun q => q.id == postId) ≠ none := by
    intro hnone
    rcases List.any_eq_true.1 h with ⟨p, hp, hpid⟩
    have hmm : (if p.id == postId then markPublished now p else p) ∈
        st.posts.map (fun p => if p.id == postId then markPublished now p else p) :=
      List.mem_map.2 ⟨p, hp, rfl⟩
    rw [if_pos hpid] at hmm
    have := List.find?_eq_none.1 hnone _ hmm
    rw [markPublished_id] at this
    exact this hpid
  unfold PostService.PublishPost
  rw [hrepo]
  dsimp only
  unfold PostRepository.GetPostById
  cases hfd : (st.posts.map (fun p => if p.id == postId then markPublished now p else p)).find?
      (fun q => q.id == postId) with
  | none => exact absurd hfd hfind
  | some post =>
    dsimp only
    exact ⟨rfl, hmem⟩

/-- C5 witness: a store with one scheduled post and one confirmed subscriber;
with the dispatcher failing, `PublishPost` still returns success and the post
is posted with `published_at` set. -/
theorem PostService.publishPost_dispatch_failure_still_ok_witness :
    (oneSubStore.posts.any (fun p => p.id == 1) = true) ∧
    ((PostService.PublishPost oneSubStore 1 7 ⟨false, false, true⟩).1 = .ok () ∧
      ∀ q ∈ (PostService.PublishPost oneSubStore 1 7 ⟨false, false, true⟩).2.1.posts,
        q.id = 1 → q.status = .posted ∧ q.publishedAt = some 7) :=
  ⟨by decide, PostService.publishPost_dispatch_failure_still_ok oneSubStore 1 7 (by decide)⟩

/-! ## Sweep machinery -/

theorem map_pubUpd_no_match {ps : List PostRow} {pid : Nat} {now : Int}
    (h : ps.any (fun p => p.id == pid) = false) :
    ps.map (fun p => if p.id == pid then markPublished now p else p) = ps := by
  have : ∀ p ∈ ps, (if p.id == pid then markPublished now p else p) = p := by
    intro p hp
    rw [if_neg]
    intro hc
    rw [← Bool.not_eq_true] at h
    exact h (List.any_eq_true.2 ⟨p, hp, hc⟩)
  rw [List.map_congr_left this, List.map_id']

theorem sweepFold_posts (now : Int) :
    ∀ (L : List PostRow) (s : Store) (acc : List Nat),
    ((L.foldl (fun acc post =>
        ((PostService.PublishPost acc.1 post.id now noFaults).2.1, acc.2 ++ [post.id]))
      (s, acc)).1).posts =
    L.foldl (fun ps d =>
      ps.map (fun p => if p.id == d.id then markPublished now p else p)) s.posts := by
  intro L
  induction L with
  | nil => intro s acc; rfl
  | cons d L ih =>
    intro s acc
    rw [List.foldl_cons, List.foldl_cons]
    have hstep : (PostService.PublishPost s d.id now noFaults).2.1 =
        if s.posts.any (fun p => p.id == d.id) then
          { s with posts := s.posts.map (fun p => if p.id == d.id then markPublished now p else p) }
        else s :=
      svcPublishPost_store s d.id now noFaults rfl
    rw [hstep]
    by_cases hany : (s.posts.any (fun p => p.id == d.id)) = true
    · rw [if_pos hany, ih]
    · rw [if_neg hany, ih, map_pubUpd_no_match (Bool.not_eq_true _ ▸ hany)]

theorem fold_map_comm (now : Int) :
    ∀ (L : List PostRow) (ps : List PostRow),
    L.foldl (fun ps d =>
        ps.map (fun p => if p.id == d.id then markPublished now p else p)) ps =
      ps.map (fun p =>
        L.foldl (fun q d => if q.id == d.id then markPublished now q else q) p) := by
  intro L
  induction L with
  | nil => intro ps; simp
  | cons d L ih =>
    intro ps
    rw [List.foldl_cons, ih, List.map_map]
    rfl

theorem foldUpd_eq (now : Int) :
    ∀ (L : List PostRow) (p : PostRow),
    L.foldl (fun q d => if q.id == d.id then markPublished now q else q) p =
      if L.any (fun d => p.id == d.id) then markPublished now p else p := by
  intro L
  induction L with
  | nil => intro p; simp
  | cons d L ih =>
    intro p
    rw [List.foldl_cons]
    by_cases hd : (p.id == d.id) = true
    · rw [if_pos hd, ih]
      have hid : (markPublished now p).id = p.id := rfl
      have hany : ((d :: L).any (fun d => p.id == d.id)) = true := by
        simp [List.any_cons, hd]
      rw [if_pos hany]
      split <;> rfl
    · rw [if_neg hd, ih]
      have : ((d :: L).any (fun d => p.id == d.id)) = (L.any (fun d => p.id == d.id)) := by
        simp [List.any_cons, hd]
      rw [this]

theorem sweep_posts_raw (st : Store) (now : Int) :
    (PostPublisher.publishScheduledPosts st now false (fun _ => noFaults)).1.posts =
      st.posts.map (fun p =>
        if (st.posts.filter (dueForPublication now)).any (fun d => p.id == d.id) then
          markPublished now p
        else p) := by
  unfold PostPublisher.publishScheduledPosts
  rw [if_neg (by simp)]
  unfold PostRepository.GetPostsDueForPublication
  rw [sweepFold_posts now _ st [], fold_map_comm]
  exact List.map_congr_left (fun p _ => foldUpd_eq now _ p)

theorem sweep_posts {st : Store} {now : Int} (hnd : idsNodup st) :
    (PostPublisher.publishScheduledPosts st now false (fun _ => noFaults)).1.posts =
      st.posts.map (fun p =>
        if dueForPublication now p then markPublished now p else p) := by
  rw [sweep_posts_raw]
  refine List.map_congr_left (fun p hp => ?_)
  have hcond : ((st.posts.filter (dueForPublication now)).any (fun d => p.id == d.id)) =
      dueForPublication now p := by
    by_cases hdue : dueForPublication now p = true
    · rw [hdue]
      exact List.any_eq_true.2 ⟨p, List.mem_filter.2 ⟨hp, hdue⟩, by simp⟩
    · rw [Bool.not_eq_true] at hdue
      rw [hdue]
      rw [← Bool.not_eq_true]
      intro hc
      rcases List.any_eq_true.1 hc with ⟨d, hdf, hpd⟩
      rcases List.mem_filter.1 hdf with ⟨hdm, hddue⟩
      have : p = d := mem_id_eq_of_nodup hnd hp hdm (by simpa using hpd)
      rw [← this] at hddue
      simp [hddue] at hdue
  rw [hcond]

/-- C6: a sweep in which every call succeeds transitions exactly the due
scheduled posts (status scheduled, `scheduled_at` ≤ now) to posted with
`published_at` = now and their other columns intact, and leaves every other
post entirely unchanged (assuming primary-key-distinct ids and the §3
invariant that scheduled posts have null `published_at`). -/
theorem PostPublisher.sweep_publishes_exactly_due
    (st : Store) (now : Int) (hnd : idsNodup st)
    (hsched : ∀ p ∈ st.posts, p.status = PostStatus.scheduled → p.publishedAt = none) :
    ∀ p ∈ st.posts,
      ∀ q ∈ (PostPublisher.publishScheduledPosts st now false (fun _ => noFaults)).1.posts,
        q.id = p.id →
          ((p.status = PostStatus.scheduled ∧ ∃ t, p.scheduledAt = some t ∧ t ≤ now) →
            q.status = PostStatus.posted ∧ q.publishedAt = some now ∧
            q.scheduledAt = p.scheduledAt ∧ q.title = p.title ∧
            q.contentHtml = p.contentHtml ∧ q.newsletterId = p.newsletterId) ∧
          (¬(p.status = PostStatus.scheduled ∧ ∃ t, p.scheduledAt = some t ∧ t ≤ now) →
            q = p) := by
  intro p hp q hq hid
  rw [sweep_posts hnd] at hq
  rcases List.mem_map.1 hq with ⟨r, hr, hrq⟩
  have hqid : q.id = r.id := by
    rw [← hrq]; split <;> rfl
  have hrp : r = p := mem_id_eq_of_nodup hnd hr hp (by rw [← hqid, hid])
  subst hrp
  constructor
  · rintro ⟨hs, t, hst, htle⟩
    have hdue : dueForPublication now r = true := by
      unfold dueForPublication
      rw [hs, hst, hsched r hr hs]
      simp [htle]
    rw [if_pos hdue] at hrq
    rw [← hrq]
    exact ⟨rfl, rfl, rfl, rfl, rfl, rfl⟩
  · intro hnot
    have hdue : ¬ (dueForPublication now r = true) := by
      intro hd
      apply hnot
      unfold dueForPublication at hd
      rcases hsa : r.scheduledAt with _ | t
      · rw [hsa] at hd; simp at hd
      · rw [hsa] at hd
        simp only [Bool.and_eq_true, decide_eq_true_eq] at hd
        exact ⟨hd.1.1, t, rfl, hd.1.2⟩
    rw [if_neg hdue] at hrq
    exact hrq.symm

/-- C6 witness: the sweep fixture (due post 1, future post 2, posted post 3)
at time 10 satisfies the hypotheses, and the sweep theorem applies to it. -/
theorem PostPublisher.sweep_publishes_exactly_due_witness :
    idsNodup sweepStore ∧
    (∀ p ∈ sweepStore.posts, p.status = PostStatus.scheduled → p.publishedAt = none) ∧
    (∀ p ∈ sweepStore.posts,
      ∀ q ∈ (PostPublisher.publishScheduledPosts sweepStore 10 false (fun _ => noFaults)).1.posts,
        q.id = p.id →
          ((p.status = PostStatus.scheduled ∧ ∃ t, p.scheduledAt = some t ∧ t ≤ 10) →
            q.status = PostStatus.posted ∧ q.publishedAt = some 10 ∧
            q.scheduledAt = p.scheduledAt ∧ q.title = p.title ∧
            q.contentHtml = p.contentHtml ∧ q.newsletterId = p.newsletterId) ∧
          (¬(p.status = PostStatus.scheduled ∧ ∃ t, p.scheduledAt = some t ∧ t ≤ 10) →
            q = p)) :=
  ⟨by decide, by decide,
    PostPublisher.sweep_publishes_exactly_due sweepStore 10 (by decide) (by decide)⟩

theorem sweepFold_invoked (now : Int) (f : Nat → Faults) :
    ∀ (L : List PostRow) (s : Store) (acc : List Nat),
    (L.foldl (fun acc post =>
        ((PostService.PublishPost acc.1 post.id now (f post.id)).2.1, acc.2 ++ [post.id]))
      (s, acc)).2 = acc ++ L.map PostRow.id := by
  intro L
  induction L with
  | nil => intro s acc; simp
  | cons d L ih =>
    intro s acc
    rw [List.foldl_cons, ih, List.map_cons]
    simp

/-- C8: within one sweep, `PublishPost` is invoked for every due post in the
batch regardless of per-post failures (the invocation list is exactly the due
posts' ids, whatever the per-post fault assignment does), and the sweep makes
zero publish invocations only when the due-posts query itself fails. -/
theorem PostPublisher.sweep_isolates_per_post_failures
    (st : Store) (now : Int) (perPost : Nat → Faults) :
    (PostPublisher.publishScheduledPosts st now false perPost).2 =
      (PostRepository.GetPostsDueForPublication st now).map PostRow.id ∧
    (PostPublisher.publishScheduledPosts st now true perPost).2 = [] := by
  constructor
  · unfold PostPublisher.publishScheduledPosts
    rw [if_neg (by simp)]
    rw [sweepFold_invoked now perPost _ st []]
    simp
  · unfold PostPublisher.publishScheduledPosts
    rw [if_pos rfl]

/-! ## Lifecycle preservation lemmas -/

theorem Op.apply_create (e : Nat) (req : PublishPostRequest) (nl newId : Nat)
    (now : Int) (st : Store) :
    (Op.create e req nl newId).apply now st =
      match PostRepository.CreatePost st e req nl newId now with
      | some (.ok (_, st1)) => st1
      | _ => st := rfl

theorem Op.apply_update (pid : Nat) (req : PublishPostRequest) (now : Int) (st : Store) :
    (Op.update pid req).apply now st =
      match PostRepository.UpdatePost st pid req now with
      | .ok (_, st1) => st1
      | .error _ => st := rfl

theorem Op.apply_publish (pid : Nat) (now : Int) (st : Store) :
    (Op.publish pid).apply now st =
      match PostRepository.PublishPost st pid now with
      | .ok st1 => st1
      | .error _ => st := rfl

theorem Op.apply_sweep (now : Int) (st : Store) :
    Op.sweep.apply now st =
      (PostPublisher.publishScheduledPosts st now false (fun _ => noFaults)).1 := rfl

theorem map_id_of_preserves {l : List PostRow} {f : PostRow → PostRow}
    (h : ∀ p, (f p).id = p.id) : (l.map f).map PostRow.id = l.map PostRow.id := by
  rw [List.map_map]
  exact List.map_congr_left (fun p _ => h p)

theorem apply_idsNodup (st : Store) (op : Op) (now : Int) (hnd : idsNodup st) :
    idsNodup (op.apply now st) := by
  cases op with
  | create e req nl newId =>
    rw [Op.apply_create]
    unfold PostRepository.CreatePost
    cases hdc : createDueCheck req.scheduledAt now with
    | none => exact hnd
    | some due =>
      dsimp only
      by_cases hany : (st.posts.any (fun p => p.id == newId)) = true
      · rw [if_pos hany]
        exact hnd
      · rw [if_neg hany]
        show ((st.posts ++ [_]).map PostRow.id).Nodup
        rw [List.map_append]
        refine List.nodup_append.2 ⟨hnd, by simp, ?_⟩
        intro a ha hb
        simp only [List.map_cons, List.map_nil, List.mem_singleton] at hb
        rcases List.mem_map.1 ha with ⟨r, hr, hrid⟩
        apply hany
        exact List.any_eq_true.2 ⟨r, hr, by rw [hrid, hb]; simp⟩
  | update pid req =>
    rw [Op.apply_update]
    unfold PostRepository.UpdatePost
    cases hf : st.posts.find? (fun p => p.id == pid) with
    | none => exact hnd
    | some orig =>
      show ((st.posts.map _).map PostRow.id).Nodup
      rw [map_id_of_preserves]
      · exact hnd
      · intro p
        by_cases hpid : (p.id == pid) = true
        · rw [if_pos hpid]; rfl
        · rw [if_neg hpid]
  | publish pid =>
    rw [Op.apply_publish]
    unfold PostRepository.PublishPost
    by_cases hany : (st.posts.any (fun p => p.id == pid)) = true
    · rw [if_pos hany]
      show ((st.posts.map _).map PostRow.id).Nodup
      rw [map_id_of_preserves]
      · exact hnd
      · intro p
        by_cases hpid : (p.id == pid) = true
        · rw [if_pos hpid]; rfl
        · rw [if_neg hpid]
    · rw [if_neg hany]
      exact hnd
  | sweep =>
    rw [Op.apply_sweep]
    show (((PostPublisher.publishScheduledPosts st now false (fun _ => noFaults)).1.posts).map
      PostRow.id).Nodup
    rw [sweep_posts_raw]
    rw [map_id_of_preserves]
    · exact hnd
    · intro p
      split <;> rfl

theorem apply_postedPub (st : Store) (op : Op) (now : Int)
    (hpp : postedHasPublishedAt st) : postedHasPublishedAt (op.apply now st) := by
  cases op with
  | create e req nl newId =>
    rw [Op.apply_create]
    unfold PostRepository.CreatePost
    cases hdc : createDueCheck req.scheduledAt now with
    | none => exact hpp
    | some due =>
      dsimp only
      by_cases hany : (st.posts.any (fun p => p.id == newId)) = true
      · rw [if_pos hany]
        exact hpp
      · rw [if_neg hany]
        intro q hq hqs
        rcases List.mem_append.1 hq with hq | hq
        · exact hpp q hq hqs
        · rw [List.mem_singleton] at hq
          cases due
          · rw [hq] at hqs
            exact absurd hqs (by simp)
          · rw [hq]
            simp
  | update pid req =>
    rw [Op.apply_update]
    unfold PostRepository.UpdatePost
    cases hf : st.posts.find? (fun p => p.id == pid) with
    | none => exact hpp
    | some orig =>
      dsimp only
      intro q hq hqs
      rcases List.mem_map.1 hq with ⟨r, hr, hrq⟩
      by_cases hpid : (r.id == pid) = true
      · rw [if_pos hpid] at hrq
        by_cases hio : orig.publishedAt.isSome = true
        · rw [if_pos hio] at hrq
          rw [← hrq]
          show orig.publishedAt ≠ none
          rw [← Option.isSome_iff_ne_none]
          exact hio
        · rw [if_neg hio] at hrq
          by_cases hdue : (match req.scheduledAt with
              | some t => decide (t < now) || decide (t = now)
              | none => false) = true
          · rw [if_pos hdue] at hrq
            rw [← hrq]
            simp [applyPostUpdate]
          · rw [if_neg hdue] at hrq
            rw [← hrq] at hqs
            exact absurd hqs (by simp [applyPostUpdate])
      · rw [if_neg hpid] at hrq
        rw [← hrq] at hqs ⊢
        exact hpp r hr hqs
  | publish pid =>
    rw [Op.apply_publish]
    unfold PostRepository.PublishPost
    by_cases hany : (st.posts.any (fun p => p.id == pid)) = true
    · rw [if_pos hany]
      intro q hq hqs
      rcases List.mem_map.1 hq with ⟨r, hr, hrq⟩
      by_cases hpid : (r.id == pid) = true
      · rw [if_pos hpid] at hrq
        rw [← hrq]
        simp [markPublished]
      · rw [if_neg hpid] at hrq
        rw [← hrq] at hqs ⊢
        exact hpp r hr hqs
    · rw [if_neg hany]
      exact hpp
  | sweep =>
    rw [Op.apply_sweep]
    intro q hq hqs
    rw [sweep_posts_raw] at hq
    rcases List.mem_map.1 hq with ⟨r, hr, hrq⟩
    by_cases hdue : ((st.posts.filter (dueForPublication now)).any (fun d => r.id == d.id)) = true
    · rw [if_pos hdue] at hrq
      rw [← hrq]
      simp [markPublished]
    · rw [if_neg hdue] at hrq
      rw [← hrq] at hqs ⊢
      exact hpp r hr hqs

theorem step_posted_stable (st : Store) (op : Op) (now : Int) (p : PostRow)
    (hnd : idsNodup st) (hpp : postedHasPublishedAt st)
    (hp : p ∈ st.posts) (hposted : p.status = PostStatus.posted) :
    ∃ q, q ∈ (op.apply now st).posts ∧ q.id = p.id ∧ q.status = PostStatus.posted ∧
      (op.isPublishOf p.id = false → q.publishedAt = p.publishedAt) := by
  cases op with
  | create e req nl newId =>
    rw [Op.apply_create]
    unfold PostRepository.CreatePost
    cases hdc : createDueCheck req.scheduledAt now with
    | none => exact ⟨p, hp, rfl, hposted, fun _ => rfl⟩
    | some due =>
      dsimp only
      by_cases hany : (st.posts.any (fun p => p.id == newId)) = true
      · rw [if_pos hany]
        exact ⟨p, hp, rfl, hposted, fun _ => rfl⟩
      · rw [if_neg hany]
        exact ⟨p, List.mem_append_left _ hp, rfl, hposted, fun _ => rfl⟩
  | update pid req =>
    rw [Op.apply_update]
    unfold PostRepository.UpdatePost
    cases hf : st.posts.find? (fun x => x.id == pid) with
    | none => exact ⟨p, hp, rfl, hposted, fun _ => rfl⟩
    | some orig =>
      dsimp only
      by_cases hpid : (p.id == pid) = true
      · have horigmem : orig ∈ st.posts := List.mem_of_find?_eq_some hf
        have horigid : orig.id = pid := by simpa using List.find?_some hf
        have hpidEq : p.id = pid := by simpa using hpid
        have horigp : orig = p :=
          mem_id_eq_of_nodup hnd horigmem hp (by rw [horigid, hpidEq])
        have hio : orig.publishedAt.isSome = true := by
          rw [horigp, Option.isSome_iff_ne_none]
          exact hpp p hp hposted
        refine ⟨applyPostUpdate req PostStatus.posted orig.publishedAt p,
          List.mem_map.2 ⟨p, hp, ?_⟩, rfl, rfl, fun _ => ?_⟩
        · rw [if_pos hpid, if_pos hio]
        · show orig.publishedAt = p.publishedAt
          rw [horigp]
      · refine ⟨p, List.mem_map.2 ⟨p, hp, ?_⟩, rfl, hposted, fun _ => rfl⟩
        rw [if_neg hpid]
  | publish pid =>
    rw [Op.apply_publish]
    unfold PostRepository.PublishPost
    by_cases hany : (st.posts.any (fun x => x.id == pid)) = true
    · rw [if_pos hany]
      dsimp only
      by_cases hpid : (p.id == pid) = true
      · refine ⟨markPublished now p, List.mem_map.2 ⟨p, hp, ?_⟩, rfl, rfl, fun hfalse => ?_⟩
        · rw [if_pos hpid]
        · have hpidEq : p.id = pid := by simpa using hpid
          exact absurd hfalse (by simp [Op.isPublishOf, hpidEq])
      · refine ⟨p, List.mem_map.2 ⟨p, hp, ?_⟩, rfl, hposted, fun _ => rfl⟩
        rw [if_neg hpid]
    · rw [if_neg hany]
      exact ⟨p, hp, rfl, hposted, fun _ => rfl⟩
  | sweep =>
    rw [Op.apply_sweep]
    have hdue : dueForPublication now p = false := by
      unfold dueForPublication
      rw [hposted]
      simp
    refine ⟨p, ?_, rfl, hposted, fun _ => rfl⟩
    rw [sweep_posts hnd]
    refine List.mem_map.2 ⟨p, hp, ?_⟩
    rw [if_neg (by rw [hdue]; simp)]

/-- C2 (amended): over any operation sequence from a well-formed store
(distinct ids; posted rows have `published_at` set), a posted post never
reverts to scheduled, and its `published_at` is unchanged by every
operation except a direct `PublishPost` targeting that very post id — which
does overwrite it, since the transition UPDATE is unconditional on status. -/
theorem Op.posted_monotone_publishedAt_stable :
    ∀ (ops : List (Op × Int)) (st : Store) (p : PostRow),
      idsNodup st → postedHasPublishedAt st → p ∈ st.posts →
      p.status = PostStatus.posted →
      (∀ q ∈ (Op.applyAll ops st).posts, q.id = p.id → q.status = PostStatus.posted) ∧
      ((∀ oi ∈ ops, oi.1.isPublishOf p.id = false) →
        ∀ q ∈ (Op.applyAll ops st).posts, q.id = p.id → q.publishedAt = p.publishedAt) := by
  intro ops
  induction ops with
  | nil =>
    intro st p hnd hpp hp hposted
    constructor
    · intro q hq hid
      have hqp : q = p := mem_id_eq_of_nodup hnd hq hp hid
      rw [hqp]
      exact hposted
    · intro _ q hq hid
      have hqp : q = p := mem_id_eq_of_nodup hnd hq hp hid
      rw [hqp]
  | cons oi ops ih =>
    intro st p hnd hpp hp hposted
    obtain ⟨q1, hq1mem, hq1id, hq1status, hq1pub⟩ :=
      step_posted_stable st oi.1 oi.2 p hnd hpp hp hposted
    have hnd1 := apply_idsNodup st oi.1 oi.2 hnd
    have hpp1 := apply_postedPub st oi.1 oi.2 hpp
    obtain ⟨ha, hb⟩ := ih (oi.1.apply oi.2 st) q1 hnd1 hpp1 hq1mem hq1status
    have happ : Op.applyAll (oi :: ops) st = Op.applyAll ops (oi.1.apply oi.2 st) := rfl
    rw [happ]
    constructor
    · intro q hq hid
      exact ha q hq (by rw [hid, ← hq1id])
    · intro hex q hq hid
      have hp1 : q1.publishedAt = p.publishedAt :=
        hq1pub (hex oi (List.mem_cons_self _ _))
      have hq1 := hb (fun oj hoj => by rw [hq1id]; exact hex oj (List.mem_cons_of_mem _ hoj))
        q hq (by rw [hid, ← hq1id])
      rw [hq1, hp1]

/-- C2 counterexample: a direct `PublishPost` on a post already posted at
time 5, issued at time 10, overwrites `published_at` to 10 — `published_at`
is not immutable under the claim's full operation alphabet. -/
theorem PostRepository.publishPost_overwrites_publishedAt_cex :
    postedPost.status = PostStatus.posted ∧ postedPost.publishedAt = some 5 ∧
    postedStore.posts = [postedPost] ∧
    ((Op.publish 2).apply 10 postedStore).posts.map (fun p => p.publishedAt) = [some 10] := by
  decide

/-- C2 witness: the amended theorem applied to the posted-post fixture under
an update (at time 10) followed by a sweep (at time 20). -/
theorem Op.posted_monotone_publishedAt_stable_witness :
    idsNodup postedStore ∧ postedHasPublishedAt postedStore ∧
    postedPost ∈ postedStore.posts ∧ postedPost.status = PostStatus.posted ∧
    ((∀ q ∈ (Op.applyAll c2ops postedStore).posts,
        q.id = postedPost.id → q.status = PostStatus.posted) ∧
      ((∀ oi ∈ c2ops, oi.1.isPublishOf postedPost.id = false) →
        ∀ q ∈ (Op.applyAll c2ops postedStore).posts,
          q.id = postedPost.id → q.publishedAt = postedPost.publishedAt)) :=
  ⟨by decide, by decide, by decide, by decide,
    Op.posted_monotone_publishedAt_stable c2ops postedStore postedPost
      (by decide) (by decide) (by decide) (by decide)⟩

/-- C1 (code evaluated at the failing input): the store holds exactly one
subscriber, confirmed but unsubscribed at time 5; publishing the newsletter's
post dispatches mail addressed to that subscriber — the fan-out filters only
on the confirmed flag, never on `unsubscribed_at`. -/
theorem PostService.publish_mails_unsubscribed_subscriber :
    unsubbedConfirmed.isConfirmed = true ∧
    unsubbedConfirmed.unsubscribedAt = some 5 ∧
    fanoutBugStore.subscribers = [unsubbedConfirmed] ∧
    (PostService.PublishPost fanoutBugStore 1 7 noFaults).2.2 =
      [{ recipients := ["a@x"], subject := "N: T", htmlBody := "H" }] := by
  decide

/-- C9: editor 10 owns newsletter 1, and post 5 belongs to newsletter 2;
`DeletePostById` supplied with newsletter 1 nevertheless succeeds and deletes
the post, and `GetPostById` returns it — neither path checks that the post
belongs to the supplied newsletter. -/
theorem PostService.delete_get_ignore_post_newsletter :
    otherPost.newsletterId = 2 ∧ newsletter1.id = 1 ∧ newsletter1.editorId = 10 ∧
    twoNewsletterStore.posts = [otherPost] ∧
    PostService.DeletePostById twoNewsletterStore 1 5 10 =
      (.ok (), { posts := [], newsletters := twoNewsletterStore.newsletters, subscribers := [] }) ∧
    PostService.GetPostById twoNewsletterStore 1 5 10 = .ok otherPost := by
  decide

/-- C10 counterexample: with a nil ScheduledAt and a newsletter the caller
does not own (absent here), `CreatePost` returns not-found — not a validation
error — because the ownership check (a repository access) runs before
validation. -/
theorem PostService.createPost_nil_schedule_not_validation_cex :
    nilTimeReq.scheduledAt = none ∧
    PostService.CreatePost emptyStore 10 nilTimeReq 1 99 0 false =
      some (.error .notFound, emptyStore, []) ∧
    SvcError.notFound ≠ SvcError.badRequest := by
  decide

theorem repoCreate_ne_none {st : Store} {uid : Nat} {req : PublishPostRequest}
    {nlid newId : Nat} {now : Int} (h : req.scheduledAt ≠ none) :
    PostRepository.CreatePost st uid req nlid newId now ≠ none := by
  unfold PostRepository.CreatePost
  cases hsa : req.scheduledAt with
  | none => exact absurd hsa h
  | some t =>
    unfold createDueCheck
    dsimp only
    split <;> simp

/-- C10 (amended): the service never reaches the repository's nil-pointer
branch (its result is never the modelled dereference), and whenever
ScheduledAt is nil and the newsletter ownership check succeeds, `CreatePost`
returns a validation (bad-request) error with the store unchanged and no
fan-out — so the repository insert only ever runs with ScheduledAt non-nil. -/
theorem PostService.createPost_no_nil_deref
    (st : Store) (eid : Nat) (req : PublishPostRequest) (nlid newId : Nat)
    (now : Int) (sf : Bool) :
    PostService.CreatePost st eid req nlid newId now sf ≠ none ∧
    (req.scheduledAt = none →
      ∀ nl, NewsletterService.GetNewsletterByIDCheckOwnership st nlid eid = .ok nl →
        PostService.CreatePost st eid req nlid newId now sf =
          some (.error .badRequest, st, [])) := by
  constructor
  · unfold PostService.CreatePost
    cases ho : NewsletterService.GetNewsletterByIDCheckOwnership st nlid eid with
    | error e => simp
    | ok nl =>
      dsimp only
      unfold PostService.validatePublishPostRequest
      by_cases ht : req.title.trim = ""
      · rw [if_pos ht]
        simp
      · rw [if_neg ht]
        by_cases hs : req.scheduledAt = none
        · rw [if_pos hs]
          simp
        · rw [if_neg hs]
          dsimp only
          cases hrepo : PostRepository.CreatePost st eid req nlid newId now with
          | none => exact absurd hrepo (repoCreate_ne_none hs)
          | some ex =>
            cases ex with
            | error e => simp
            | ok pair =>
              dsimp only
              split <;> simp
  · intro hs nl ho
    unfold PostService.CreatePost
    rw [ho]
    dsimp only
    unfold PostService.validatePublishPostRequest
    by_cases ht : req.title.trim = ""
    · rw [if_pos ht]
    · rw [if_neg ht, if_pos hs]

/-- C10 witness: on a store whose newsletter 1 is owned by editor 10, a
request with nil ScheduledAt yields the validation error with no state
change. -/
theorem PostService.createPost_no_nil_deref_witness :
    nilTimeReq.scheduledAt = none ∧
    NewsletterService.GetNewsletterByIDCheckOwnership oneSubStore 1 10 = .ok newsletter1 ∧
    PostService.CreatePost oneSubStore 10 nilTimeReq 1 99 0 false =
      some (.error .badRequest, oneSubStore, []) :=
  ⟨by decide, by decide,
    (PostService.createPost_no_nil_deref oneSubStore 10 nilTimeReq 1 99 0 false).2
      (by decide) newsletter1 (by decide)⟩

/-- C3 counterexample: updating a post that is already posted (published at
time 5) with a future requested send time (100 > now = 10) still triggers the
fan-out — mail is re-sent to the newsletter's confirmed subscriber even
though no new transition into posted occurred. -/
theorem PostService.updatePost_already_posted_refanout_cex :
    postedPost.publishedAt = some 5 ∧ postedPost.status = PostStatus.posted ∧
    futureReq.scheduledAt = some 100 ∧ (10 : Int) < 100 ∧
    (PostService.UpdatePost postedStore 10 2 futureReq 1 10 false).2.2 =
      [{ recipients := ["b@x"], subject := "N: T2", htmlBody := "H2" }] := by
  decide

/-- C3 (amended): under a successful ownership check, an existing post that
belongs to the supplied newsletter, and at least one confirmed subscriber,
`UpdatePost` dispatches mail exactly when the post after the update is posted:
when the post was already posted (`published_at` non-null, preserved), or when
the new requested send time is now-or-past — so an update of an already-posted
post re-triggers the fan-out rather than leaving it alone. -/
theorem PostService.updatePost_fanout_iff_posted
    (st : Store) (editorId postId newsletterId : Nat) (req : PublishPostRequest)
    (now : Int) (sf : Bool) (nl : NewsletterRow) (orig : PostRow)
    (hnl : NewsletterService.GetNewsletterByIDCheckOwnership st newsletterId editorId = .ok nl)
    (horig : PostRepository.GetPostById st postId = .ok orig)
    (hbelong : orig.newsletterId = newsletterId)
    (hsub : (SubscriberRepository.ListByNewsletterID st newsletterId).filter
      (fun s => s.isConfirmed) ≠ []) :
    ((PostService.UpdatePost st editorId postId req newsletterId now sf).2.2 ≠ []) ↔
      (orig.publishedAt ≠ none ∨ ∃ t, req.scheduledAt = some t ∧ t ≤ now) := by
  unfold PostService.UpdatePost
  rw [hnl]
  dsimp only
  rw [horig]
  dsimp only
  rw [if_neg (by simp [hbelong])]
  unfold PostRepository.UpdatePost
  rw [getPostById_ok.1 horig]
  dsimp only
  by_cases hio : orig.publishedAt.isSome = true
  · rw [if_pos hio]
    dsimp only
    have hpubne : orig.publishedAt ≠ none := Option.isSome_iff_ne_none.1 hio
    have hpostpub : (applyPostUpdate req PostStatus.posted orig.publishedAt orig).publishedAt ≠
        none := hpubne
    rw [if_pos ⟨rfl, hpostpub⟩]
    dsimp only
    rw [sendMail_posted_calls rfl hpostpub
      (show NewsletterRepository.GetByID _ _ = .ok nl by
        show NewsletterRepository.GetByID st orig.newsletterId = .ok nl
        rw [hbelong]
        exact ownership_ok hnl)
      (show List.filter _ (SubscriberRepository.ListByNewsletterID _ _) ≠ [] by
        show List.filter _ (SubscriberRepository.ListByNewsletterID st orig.newsletterId) ≠ []
        rw [hbelong]
        exact hsub)]
    exact iff_of_true (by simp) (Or.inl hpubne)
  · rw [if_neg hio]
    by_cases hdue : (match req.scheduledAt with
        | some u => decide (u < now) || decide (u = now)
        | none => false) = true
    · rw [if_pos hdue]
      dsimp only
      have hpostpub : (applyPostUpdate req PostStatus.posted (some now) orig).publishedAt ≠
          none := by simp [applyPostUpdate]
      rw [if_pos ⟨rfl, hpostpub⟩]
      dsimp only
      rw [sendMail_posted_calls rfl hpostpub
        (show NewsletterRepository.GetByID _ _ = .ok nl by
          show NewsletterRepository.GetByID st orig.newsletterId = .ok nl
          rw [hbelong]
          exact ownership_ok hnl)
        (show List.filter _ (SubscriberRepository.ListByNewsletterID _ _) ≠ [] by
          show List.filter _ (SubscriberRepository.ListByNewsletterID st orig.newsletterId) ≠ []
          rw [hbelong]
          exact hsub)]
      refine iff_of_true (by simp) (Or.inr ?_)
      rcases hsa : req.scheduledAt with _ | u
      · rw [hsa] at hdue; simp at hdue
      · rw [hsa] at hdue
        dsimp only at hdue
        have hdue2 : u < now ∨ u = now := by simpa using hdue
        rcases hdue2 with h | h
        · exact ⟨u, rfl, le_of_lt h⟩
        · exact ⟨u, rfl, le_of_eq h⟩
    · rw [if_neg hdue]
      dsimp only
      rw [if_neg (by simp [applyPostUpdate])]
      refine iff_of_false (by simp) ?_
      rintro (hpub | ⟨u, hst, hle⟩)
      · rw [← Option.isSome_iff_ne_none] at hpub
        exact hio hpub
      · apply hdue
        rw [hst]
        dsimp only
        rcases lt_or_eq_of_le hle with h | h <;> simp [h]

/-- C3 witness: the amended theorem applied to the already-posted fixture at
time 10 with a future requested time: the fan-out fires (left-to-right via the
preserved `published_at`). -/
theorem PostService.updatePost_fanout_iff_posted_witness :
    NewsletterService.GetNewsletterByIDCheckOwnership postedStore 1 10 = .ok newsletter1 ∧
    PostRepository.GetPostById postedStore 2 = .ok postedPost ∧
    postedPost.newsletterId = 1 ∧
    ((SubscriberRepository.ListByNewsletterID postedStore 1).filter
      (fun s => s.isConfirmed) ≠ []) ∧
    (((PostService.UpdatePost postedStore 10 2 futureReq 1 10 false).2.2 ≠ []) ↔
      (postedPost.publishedAt ≠ none ∨ ∃ t, futureReq.scheduledAt = some t ∧ t ≤ 10)) :=
  ⟨by decide, by decide, by decide, by decide,
    PostService.updatePost_fanout_iff_posted postedStore 10 2 1 futureReq 10 false
      newsletter1 postedPost (by decide) (by decide) (by decide) (by decide)⟩

/-- C7 counterexample: updating the already-posted fixture with requested
send time 100 at now = 10 (a future time, which per the claim should yield
status scheduled with null `published_at`) instead keeps status posted with
the original `published_at` 5. -/
theorem PostRepository.updatePost_already_posted_due_time_cex :
    futureReq.scheduledAt = some 100 ∧ (10 : Int) < 100 ∧
    (PostRepository.UpdatePost postedStore 2 futureReq 10).toOption.map
      (fun rs => (rs.1.status, rs.1.publishedAt)) = some (PostStatus.posted, some 5) := by
  decide

/-- C7 (amended): the due-time rule holds for `CreatePost` unconditionally
and for `UpdatePost` of a post whose `published_at` is still null: a
requested send time ≤ now yields posted with `published_at` a non-null time
≥ the requested time, a future time yields scheduled with the requested time
stored and `published_at` null.  (An update of an already-posted post instead
preserves posted/`published_at` — see the counterexample.) -/
theorem PostRepository.create_update_due_time :
    (∀ (st : Store) (uid : Nat) (req : PublishPostRequest) (nlid newId : Nat) (now t : Int),
      req.scheduledAt = some t →
      st.posts.any (fun p => p.id == newId) = false →
      ∃ row st1, PostRepository.CreatePost st uid req nlid newId now = some (.ok (row, st1)) ∧
        (t ≤ now → row.status = PostStatus.posted ∧ ∃ u, row.publishedAt = some u ∧ t ≤ u) ∧
        (now < t → row.status = PostStatus.scheduled ∧ row.scheduledAt = some t ∧
          row.publishedAt = none)) ∧
    (∀ (st : Store) (postId : Nat) (req : PublishPostRequest) (now t : Int) (orig : PostRow),
      PostRepository.GetPostById st postId = .ok orig →
      orig.publishedAt = none →
      req.scheduledAt = some t →
      ∃ row st1, PostRepository.UpdatePost st postId req now = .ok (row, st1) ∧
        (t ≤ now → row.status = PostStatus.posted ∧ ∃ u, row.publishedAt = some u ∧ t ≤ u) ∧
        (now < t → row.status = PostStatus.scheduled ∧ row.scheduledAt = some t ∧
          row.publishedAt = none)) := by
  constructor
  · intro st uid req nlid newId now t hsc hfresh
    unfold PostRepository.CreatePost createDueCheck
    rw [hsc]
    dsimp only
    rw [if_neg (by rw [hfresh]; simp)]
    refine ⟨_, _, rfl, fun hle => ?_, fun hgt => ?_⟩
    · have hb : (decide (t < now) || decide (t = now)) = true := by
        rcases lt_or_eq_of_le hle with h | h <;> simp [h]
      exact ⟨by simp [hb], now, by simp [hb], hle⟩
    · have hb : (decide (t < now) || decide (t = now)) = false := by
        have h1 : ¬ (t < now) := not_lt.2 (le_of_lt hgt)
        have h2 : t ≠ now := ne_of_gt hgt
        simp [h1, h2]
      exact ⟨by simp [hb], rfl, by simp [hb]⟩
  · intro st postId req now t orig horig hnone hsc
    unfold PostRepository.UpdatePost
    rw [getPostById_ok.1 horig]
    dsimp only
    rw [if_neg (by simp [hnone])]
    rw [hsc]
    dsimp only
    refine ⟨_, _, rfl, fun hle => ?_, fun hgt => ?_⟩
    · have hb : (decide (t < now) || decide (t = now)) = true := by
        rcases lt_or_eq_of_le hle with h | h <;> simp [h]
      exact ⟨by simp [hb, applyPostUpdate], now, by simp [hb, applyPostUpdate], hle⟩
    · have hb : (decide (t < now) || decide (t = now)) = false := by
        have h1 : ¬ (t < now) := not_lt.2 (le_of_lt hgt)
        have h2 : t ≠ now := ne_of_gt hgt
        simp [h1, h2]
      exact ⟨by simp [hb, applyPostUpdate], by simp [applyPostUpdate, hsc],
        by simp [hb, applyPostUpdate]⟩

/-- C7 witness: the create branch on an empty store with requested time 3 at
now = 7 (due), and the update branch on the scheduled fixture with requested
time 100 at now = 10 (future). -/
theorem PostRepository.create_update_due_time_witness :
    (∃ row st1, PostRepository.CreatePost emptyStore 10 dueReq 1 99 7 = some (.ok (row, st1)) ∧
      ((3 : Int) ≤ 7 → row.status = PostStatus.posted ∧
        ∃ u, row.publishedAt = some u ∧ (3 : Int) ≤ u) ∧
      ((7 : Int) < 3 → row.status = PostStatus.scheduled ∧ row.scheduledAt = some 3 ∧
        row.publishedAt = none)) ∧
    (∃ row st1, PostRepository.UpdatePost oneSubStore 1 futureReq 10 = .ok (row, st1) ∧
      ((100 : Int) ≤ 10 → row.status = PostStatus.posted ∧
        ∃ u, row.publishedAt = some u ∧ (100 : Int) ≤ u) ∧
      ((10 : Int) < 100 → row.status = PostStatus.scheduled ∧ row.scheduledAt = some 100 ∧
        row.publishedAt = none)) :=
  ⟨(PostRepository.create_update_due_time).1 emptyStore 10 dueReq 1 99 7 3 (by decide) (by decide),
    (PostRepository.create_update_due_time).2 oneSubStore 1 futureReq 10 100 post1
      (by decide) (by decide) (by decide)⟩

end GoNewsletter
